import Mathlib

/-!
Verification of the backup/retention script (backup_script.py).

The development shallowly embeds the parts of the script the properties
talk about:

* `pathSuffix` — the pathlib suffix computation used by the extension
  guard (line 85 of the source).
* `ageDays`, `processFile`, `deleteOldFiles` — the retention pass
  `delete_old_files` (lines 80 to 95): walk the files, skip a file whose
  suffix is not ".zip", compute the age in days as
  (now - mtime) / (3600 * 24), and if the age exceeds the cutoff attempt
  to unlink the file and append a log line, catching any failure of that
  per-file block.  The two oracles `unlinkOk` and `logOk` say, per file,
  whether the unlink respectively the log append succeed; a caught
  failure yields an error outcome for that file and the walk continues.
* `maxAgeDays` — the cutoff computation (line 98):
  max(RETENTION_DAYS, RETENTION_WEEKS * 7, RETENTION_MONTHS * 30).
* `datePath`, `timestampStr`, `zipName`, `zipPath` — the artifact naming
  (lines 31 to 36) using strftime "%Y/%m/%d" and "%Y%m%d_%H%M%S".
* `runAfterUpload` — the tail of the main script after the upload call
  (lines 56 to 99): the history-log append (lines 58 to 59, not guarded
  by any try block, so a failure there propagates and ends the run), the
  webhook notification gated on NOTIFY and a zero upload exit code
  (line 62), and the retention pass (line 99).

File timestamps and ages are modelled as rational numbers: the script
computes the age as a floating point day count and only compares it with
the cutoff, and all comparisons in the properties stay within exact
arithmetic.
-/

/-- A file as the retention walk sees it: its base name and its
filesystem modification time in seconds. -/
structure FsFile where
  name : String
  mtime : ℚ
deriving DecidableEq

/-- Index of the last dot in a list of characters, if any. -/
def rfindDot : List Char → Option Nat
  | [] => none
  | c :: rest =>
    match rfindDot rest with
    | some i => some (i + 1)
    | none => if c = '.' then some 0 else none

/-- The pathlib suffix of a base name: the substring from the last dot,
provided the dot is neither the first nor the last character; otherwise
the empty string. -/
def pathSuffix (name : String) : String :=
  let cs := name.toList
  match rfindDot cs with
  | none => ""
  | some i => if 0 < i ∧ i + 1 < cs.length then String.mk (cs.drop i) else ""

/-- Age of a file in days at scan time `nowTs` (seconds):
(now_ts - st_mtime) / (3600 * 24), line 87 of the source. -/
def ageDays (nowTs : ℚ) (f : FsFile) : ℚ :=
  (nowTs - f.mtime) / (3600 * 24)

/-- Outcome of the retention pass for one file. -/
inductive FileOutcome where
  /-- The suffix is not ".zip"; the file is skipped. -/
  | skippedExt : FileOutcome
  /-- The age does not exceed the cutoff; the file is kept. -/
  | keptYoung : FileOutcome
  /-- The file was unlinked; the flag records whether the subsequent
  log append also succeeded (if not, the caught failure is reported for
  this file even though it is already gone). -/
  | deleted : Bool → FileOutcome
  /-- The unlink raised; the failure was caught and the walk went on. -/
  | deleteFailed : FileOutcome
deriving DecidableEq

/-- The body of the retention loop for one file (lines 84 to 95). -/
def processFile (nowTs maxDays : ℚ) (unlinkOk logOk : FsFile → Bool)
    (f : FsFile) : FileOutcome :=
  if pathSuffix f.name ≠ ".zip" then .skippedExt
  else if maxDays < ageDays nowTs f then
    if unlinkOk f then .deleted (logOk f) else .deleteFailed
  else .keptYoung

/-- The retention pass `delete_old_files` (lines 80 to 95) over the file
population, returning the outcome of each file in walk order. -/
def deleteOldFiles (nowTs maxDays : ℚ) (unlinkOk logOk : FsFile → Bool) :
    List FsFile → List (FsFile × FileOutcome)
  | [] => []
  | f :: fs =>
    (f, processFile nowTs maxDays unlinkOk logOk f) ::
      deleteOldFiles nowTs maxDays unlinkOk logOk fs

/-- Whether an outcome means the file was removed from disk. -/
def removedB : FileOutcome → Bool
  | .deleted _ => true
  | _ => false

/-- The files a pass removed from disk. -/
def removedFiles : List (FsFile × FileOutcome) → List FsFile
  | [] => []
  | (f, o) :: rs => if removedB o then f :: removedFiles rs else removedFiles rs

/-- The files a pass left on disk. -/
def survivorFiles : List (FsFile × FileOutcome) → List FsFile
  | [] => []
  | (f, o) :: rs => if removedB o then survivorFiles rs else f :: survivorFiles rs

/-- An oracle under which every unlink and every log append succeeds. -/
def alwaysOk : FsFile → Bool := fun _ => true

/-- The keep/delete decision for one file: it is a candidate for
deletion exactly when its suffix is ".zip" and its age exceeds the
cutoff. -/
def isCandidate (nowTs maxDays : ℚ) (f : FsFile) : Bool :=
  pathSuffix f.name == ".zip" && decide (maxDays < ageDays nowTs f)

/-- The cutoff passed to the retention pass (line 98):
max(RETENTION_DAYS, RETENTION_WEEKS * 7, RETENTION_MONTHS * 30). -/
def maxAgeDays (d w m : ℕ) : ℕ :=
  max d (max (w * 7) (m * 30))

/-- A wall-clock instant, to the second. -/
structure DateTime where
  year : ℕ
  month : ℕ
  day : ℕ
  hour : ℕ
  minute : ℕ
  second : ℕ

/-- Two-digit zero padding, as strftime renders months, days, hours,
minutes and seconds. -/
def pad2 (n : ℕ) : String :=
  if n < 10 then "0" ++ toString n else toString n

/-- Four-digit zero padding, as strftime renders the year. -/
def pad4 (n : ℕ) : String :=
  if n < 10 then "000" ++ toString n
  else if n < 100 then "00" ++ toString n
  else if n < 1000 then "0" ++ toString n
  else toString n

/-- strftime "%Y/%m/%d" (line 32). -/
def datePath (t : DateTime) : String :=
  pad4 t.year ++ "/" ++ pad2 t.month ++ "/" ++ pad2 t.day

/-- strftime "%Y%m%d_%H%M%S" (line 33). -/
def timestampStr (t : DateTime) : String :=
  pad4 t.year ++ pad2 t.month ++ pad2 t.day ++ "_" ++
    pad2 t.hour ++ pad2 t.minute ++ pad2 t.second

/-- The artifact file name (line 34). -/
def zipName (projectName : String) (t : DateTime) : String :=
  projectName ++ "_" ++ timestampStr t ++ ".zip"

/-- The full artifact path (lines 35 to 36). -/
def zipPath (backupDir projectName : String) (t : DateTime) : String :=
  backupDir ++ "/" ++ datePath t ++ "/" ++ zipName projectName t

/-- The webhook payload (lines 63 to 67). -/
structure Payload where
  project : String
  date : String
  status : String
deriving DecidableEq

/-- The payload the script builds on success. -/
def mkPayload (projectName isoDate : String) : Payload :=
  ⟨projectName, isoDate, "BackupSuccessful"⟩

/-- What the tail of one run produced. `none` for a step means the step
never executed. -/
structure RunOutcome where
  /-- Whether the post-upload history-log append succeeded. -/
  logWritten : Bool
  /-- The webhook payload, when one was dispatched. -/
  notification : Option Payload
  /-- The per-file outcomes of the retention pass, when it ran. -/
  retention : Option (List (FsFile × FileOutcome))

/-- The main script after the upload call (lines 56 to 99): append the
history-log line (unguarded: a failure propagates and nothing after it
runs), then dispatch the webhook when NOTIFY is set and the upload exit
code is zero, then run the retention pass unconditionally. -/
def runAfterUpload (projectName isoDate : String) (notify : Bool)
    (uploadStatus : ℤ) (mainLogOk : Bool) (nowTs maxDays : ℚ)
    (files : List FsFile) (unlinkOk logOk : FsFile → Bool) : RunOutcome :=
  if mainLogOk then
    { logWritten := true
      notification :=
        if notify && uploadStatus == 0 then some (mkPayload projectName isoDate)
        else none
      retention := some (deleteOldFiles nowTs maxDays unlinkOk logOk files) }
  else
    { logWritten := false, notification := none, retention := none }

/-! ### Helper lemmas about the retention pass -/

theorem deleteOldFiles_eq_map (nowTs maxDays : ℚ) (u l : FsFile → Bool)
    (files : List FsFile) :
    deleteOldFiles nowTs maxDays u l files
      = files.map (fun f => (f, processFile nowTs maxDays u l f)) := by
  induction files with
  | nil => rfl
  | cons f fs ih => simp [deleteOldFiles, ih]

theorem removedB_processFile (nowTs maxDays : ℚ) (u l : FsFile → Bool)
    (f : FsFile) :
    removedB (processFile nowTs maxDays u l f)
      = (isCandidate nowTs maxDays f && u f) := by
  by_cases hsuf : pathSuffix f.name = ".zip"
  · by_cases hage : maxDays < ageDays nowTs f
    · cases hu : u f <;>
        simp [processFile, isCandidate, hsuf, hage, hu, removedB]
    · simp [processFile, isCandidate, hsuf, hage, removedB]
  · simp [processFile, isCandidate, hsuf, removedB]

theorem removedFiles_deleteOldFiles (nowTs maxDays : ℚ) (u l : FsFile → Bool)
    (files : List FsFile) :
    removedFiles (deleteOldFiles nowTs maxDays u l files)
      = files.filter (fun f => isCandidate nowTs maxDays f && u f) := by
  induction files with
  | nil => rfl
  | cons f fs ih =>
    simp only [deleteOldFiles, removedFiles, ih, List.filter_cons,
      removedB_processFile]

theorem survivorFiles_deleteOldFiles (nowTs maxDays : ℚ) (u l : FsFile → Bool)
    (files : List FsFile) :
    survivorFiles (deleteOldFiles nowTs maxDays u l files)
      = files.filter (fun f => !(isCandidate nowTs maxDays f && u f)) := by
  induction files with
  | nil => rfl
  | cons f fs ih =>
    simp only [deleteOldFiles, survivorFiles, ih, List.filter_cons,
      removedB_processFile]
    cases h : (isCandidate nowTs maxDays f && u f) <;> simp [h]

/-! ### Claim theorems -/

/-- The population of the scenario in claim C1: four archives aged
1, 8, 35 and 100 days at scan time 100 days (in seconds). -/
def scenarioPop : List FsFile :=
  [⟨"b1.zip", 99 * 86400⟩, ⟨"b8.zip", 92 * 86400⟩,
   ⟨"b35.zip", 65 * 86400⟩, ⟨"b100.zip", 0⟩]

/-- Claim C1: over a population whose files all carry the ".zip"
extension, the retention pass with no deletion failures removes exactly
the files whose age strictly exceeds the cutoff, and the survivors are
exactly the files whose age is at most the cutoff; in particular with
the default windows 7/4/3 the cutoff is 90 and, over files aged
1, 8, 35 and 100 days, only the 100-day file is removed. -/
theorem retention_deletes_exactly_older_than_cutoff :
    (∀ (nowTs c : ℚ) (files : List FsFile),
        (∀ f ∈ files, pathSuffix f.name = ".zip") →
        removedFiles (deleteOldFiles nowTs c alwaysOk alwaysOk files)
            = files.filter (fun f => decide (c < ageDays nowTs f))
          ∧ survivorFiles (deleteOldFiles nowTs c alwaysOk alwaysOk files)
            = files.filter (fun f => decide (ageDays nowTs f ≤ c)))
    ∧ maxAgeDays 7 4 3 = 90
    ∧ removedFiles (deleteOldFiles (100 * 86400) ((maxAgeDays 7 4 3 : ℕ) : ℚ)
        alwaysOk alwaysOk scenarioPop) = [⟨"b100.zip", 0⟩]
    ∧ survivorFiles (deleteOldFiles (100 * 86400) ((maxAgeDays 7 4 3 : ℕ) : ℚ)
        alwaysOk alwaysOk scenarioPop)
      = [⟨"b1.zip", 99 * 86400⟩, ⟨"b8.zip", 92 * 86400⟩,
         ⟨"b35.zip", 65 * 86400⟩] := by
  have hcut : ((maxAgeDays 7 4 3 : ℕ) : ℚ) = 90 := by
    norm_num [maxAgeDays]
  have h1 : pathSuffix "b1.zip" = ".zip" := by decide
  have h8 : pathSuffix "b8.zip" = ".zip" := by decide
  have h35 : pathSuffix "b35.zip" = ".zip" := by decide
  have h100 : pathSuffix "b100.zip" = ".zip" := by decide
  refine ⟨?_, by norm_num [maxAgeDays], ?_, ?_⟩
  · intro nowTs c files hzip
    constructor
    · rw [removedFiles_deleteOldFiles]
      refine List.filter_congr ?_
      intro f hf
      simp [isCandidate, alwaysOk, hzip f hf]
    · rw [survivorFiles_deleteOldFiles]
      refine List.filter_congr ?_
      intro f hf
      by_cases hle : ageDays nowTs f ≤ c
      · simp [isCandidate, alwaysOk, hzip f hf, hle, not_lt.mpr hle]
      · simp [isCandidate, alwaysOk, hzip f hf, hle, lt_of_not_ge hle]
  · rw [hcut]
    norm_num [scenarioPop, deleteOldFiles, processFile, removedFiles,
      removedB, ageDays, alwaysOk, h1, h8, h35, h100]
  · rw [hcut]
    norm_num [scenarioPop, deleteOldFiles, processFile, survivorFiles,
      removedB, ageDays, alwaysOk, h1, h8, h35, h100]

/-- Instantiation of the general part of the C1 theorem on the concrete
scenario population. -/
theorem retention_deletes_exactly_older_than_cutoff_witness :
    (∀ f ∈ scenarioPop, pathSuffix f.name = ".zip")
    ∧ removedFiles (deleteOldFiles (100 * 86400) 90 alwaysOk alwaysOk scenarioPop)
        = scenarioPop.filter (fun f => decide ((90 : ℚ) < ageDays (100 * 86400) f)) :=
  ⟨by decide,
    (retention_deletes_exactly_older_than_cutoff.1 (100 * 86400) 90 scenarioPop
      (by decide)).1⟩

/-- Claim C2: the cutoff handed to the retention pass is
max(d, 7 * w, 30 * m), and enlarging any single window value never
shrinks it. -/
theorem cutoff_eq_max_and_monotone :
    ∀ d w m : ℕ,
      maxAgeDays d w m = max d (max (7 * w) (30 * m))
      ∧ (∀ d2, d ≤ d2 → maxAgeDays d w m ≤ maxAgeDays d2 w m)
      ∧ (∀ w2, w ≤ w2 → maxAgeDays d w m ≤ maxAgeDays d w2 m)
      ∧ (∀ m2, m ≤ m2 → maxAgeDays d w m ≤ maxAgeDays d w m2) := by
  intro d w m
  refine ⟨by rw [maxAgeDays, Nat.mul_comm w 7, Nat.mul_comm m 30], ?_, ?_, ?_⟩
  · intro d2 h
    exact max_le_max h (le_refl _)
  · intro w2 h
    exact max_le_max (le_refl _)
      (max_le_max (Nat.mul_le_mul_right 7 h) (le_refl _))
  · intro m2 h
    exact max_le_max (le_refl _)
      (max_le_max (le_refl _) (Nat.mul_le_mul_right 30 h))

/-- Instantiation of the C2 theorem: the default windows give cutoff
max(7, 28, 90) = 90, and each window bumped by one keeps the cutoff at
least 90. -/
theorem cutoff_eq_max_and_monotone_witness :
    maxAgeDays 7 4 3 = max 7 (max (7 * 4) (30 * 3))
    ∧ maxAgeDays 7 4 3 ≤ maxAgeDays 8 4 3
    ∧ maxAgeDays 7 4 3 ≤ maxAgeDays 7 5 3
    ∧ maxAgeDays 7 4 3 ≤ maxAgeDays 7 4 4 :=
  ⟨(cutoff_eq_max_and_monotone 7 4 3).1,
    (cutoff_eq_max_and_monotone 7 4 3).2.1 8 (by decide),
    (cutoff_eq_max_and_monotone 7 4 3).2.2.1 5 (by decide),
    (cutoff_eq_max_and_monotone 7 4 3).2.2.2 4 (by decide)⟩

/-- Claim C3 as stated is false: the pass is idempotent at one and the
same scan time, but at a strictly later scan time (the cutoff, a pure
function of the configured windows, is unchanged) a file that survived
the first pass can age past the cutoff and be deleted by the second
pass.  Concretely, a file aged exactly 90 days survives a first pass
with cutoff 90, yet one day later the second pass, with no new
artifacts and no failures, deletes it — a nonempty second deletion
set. -/
theorem retention_later_rerun_can_delete :
    survivorFiles (deleteOldFiles (90 * 86400) 90 alwaysOk alwaysOk
        [⟨"a.zip", 0⟩]) = [⟨"a.zip", 0⟩]
    ∧ removedFiles (deleteOldFiles (91 * 86400) 90 alwaysOk alwaysOk
        (survivorFiles (deleteOldFiles (90 * 86400) 90 alwaysOk alwaysOk
          [⟨"a.zip", 0⟩]))) = [⟨"a.zip", 0⟩]
    ∧ ([⟨"a.zip", 0⟩] : List FsFile) ≠ [] := by
  have hz : pathSuffix "a.zip" = ".zip" := by decide
  refine ⟨?_, ?_, by decide⟩ <;>
    norm_num [deleteOldFiles, processFile, survivorFiles, removedFiles,
      removedB, ageDays, alwaysOk, hz]

/-- Claim C3 (amended): the retention pass is idempotent at the same
scan time — with no deletion failures and no new artifacts, a second
pass at the same scan time and cutoff over the survivors of a first
pass deletes nothing. -/
theorem retention_idempotent_same_scan_time :
    ∀ (nowTs c : ℚ) (files : List FsFile),
      removedFiles (deleteOldFiles nowTs c alwaysOk alwaysOk
        (survivorFiles (deleteOldFiles nowTs c alwaysOk alwaysOk files)))
        = [] := by
  intro nowTs c files
  rw [survivorFiles_deleteOldFiles, removedFiles_deleteOldFiles]
  apply List.filter_eq_nil_iff.mpr
  intro f hf
  have hmem := List.mem_filter.mp hf
  simp only [alwaysOk, Bool.and_true, Bool.not_eq_true'] at hmem ⊢
  simp [hmem.2]

/-- Claim C4: per-file failure isolation — whatever the set of files
whose unlink fails, every candidate (suffix ".zip", age above the
cutoff) whose own unlink succeeds is removed, and the pass still
processes every file of the population (no per-file failure aborts the
walk or escapes it). -/
theorem retention_per_file_failure_isolation :
    ∀ (nowTs c : ℚ) (u l : FsFile → Bool) (files : List FsFile) (f : FsFile),
      f ∈ files → pathSuffix f.name = ".zip" → c < ageDays nowTs f →
      u f = true →
      (f, FileOutcome.deleted (l f)) ∈ deleteOldFiles nowTs c u l files
      ∧ (deleteOldFiles nowTs c u l files).map Prod.fst = files := by
  intro nowTs c u l files f hmem hsuf hage hu
  constructor
  · rw [deleteOldFiles_eq_map]
    have hpf : processFile nowTs c u l f = .deleted (l f) := by
      simp [processFile, hsuf, hage, hu]
    rw [← hpf]
    exact List.mem_map_of_mem _ hmem
  · clear hmem
    induction files with
    | nil => rfl
    | cons g gs ih => simp [deleteOldFiles, ih]

/-- Instantiation of the C4 theorem: with the unlink of "locked.zip"
failing, the other 100-day-old candidate "good.zip" is still removed
and both files of the population are processed. -/
theorem retention_per_file_failure_isolation_witness :
    ((⟨"good.zip", 0⟩ : FsFile)
        ∈ ([⟨"locked.zip", 0⟩, ⟨"good.zip", 0⟩] : List FsFile)
      ∧ pathSuffix "good.zip" = ".zip"
      ∧ (90 : ℚ) < ageDays (100 * 86400) ⟨"good.zip", 0⟩
      ∧ (fun f : FsFile => f.name == "good.zip") ⟨"good.zip", 0⟩ = true)
    ∧ ((⟨"good.zip", 0⟩, FileOutcome.deleted true)
        ∈ deleteOldFiles (100 * 86400) 90
            (fun f => f.name == "good.zip") alwaysOk
            [⟨"locked.zip", 0⟩, ⟨"good.zip", 0⟩]
      ∧ (deleteOldFiles (100 * 86400) 90
            (fun f => f.name == "good.zip") alwaysOk
            [⟨"locked.zip", 0⟩, ⟨"good.zip", 0⟩]).map Prod.fst
          = [⟨"locked.zip", 0⟩, ⟨"good.zip", 0⟩]) :=
  ⟨⟨by decide, by decide, by norm_num [ageDays], by decide⟩,
    retention_per_file_failure_isolation (100 * 86400) 90
      (fun f => f.name == "good.zip") alwaysOk
      [⟨"locked.zip", 0⟩, ⟨"good.zip", 0⟩] ⟨"good.zip", 0⟩
      (by decide) (by decide) (by norm_num [ageDays]) (by decide)⟩

/-- Claim C5: a file whose suffix is not ".zip" is skipped by the loop
body and never appears among the removed files, whatever its age, the
cutoff, the scan time or the failure oracles. -/
theorem retention_never_deletes_non_zip :
    ∀ (nowTs c : ℚ) (u l : FsFile → Bool) (f : FsFile),
      pathSuffix f.name ≠ ".zip" →
      processFile nowTs c u l f = .skippedExt
      ∧ ∀ files : List FsFile,
          f ∉ removedFiles (deleteOldFiles nowTs c u l files) := by
  intro nowTs c u l f hsuf
  refine ⟨by simp [processFile, hsuf], ?_⟩
  intro files hmem
  rw [removedFiles_deleteOldFiles] at hmem
  have hfl := List.mem_filter.mp hmem
  simp [isCandidate, hsuf] at hfl

/-- Instantiation of the C5 theorem: a 100-day-old "retention.log" with
cutoff 0 is skipped and not removed. -/
theorem retention_never_deletes_non_zip_witness :
    pathSuffix "retention.log" ≠ ".zip"
    ∧ processFile (100 * 86400) 0 alwaysOk alwaysOk ⟨"retention.log", 0⟩
        = FileOutcome.skippedExt
    ∧ (⟨"retention.log", 0⟩ : FsFile)
        ∉ removedFiles (deleteOldFiles (100 * 86400) 0 alwaysOk alwaysOk
            [⟨"retention.log", 0⟩]) :=
  ⟨by decide,
    (retention_never_deletes_non_zip (100 * 86400) 0 alwaysOk alwaysOk
      ⟨"retention.log", 0⟩ (by decide)).1,
    (retention_never_deletes_non_zip (100 * 86400) 0 alwaysOk alwaysOk
      ⟨"retention.log", 0⟩ (by decide)).2 [⟨"retention.log", 0⟩]⟩

/-- Claim C6: the keep/delete decision looks only at the suffix and the
filesystem modification time — two ".zip" files with equal modification
times and arbitrary different base names (whatever timestamp either
name embeds) get the same decision and, absent failures, the same
outcome. -/
theorem retention_decision_ignores_filename :
    ∀ (nowTs c : ℚ) (n1 n2 : String) (mt : ℚ),
      pathSuffix n1 = ".zip" → pathSuffix n2 = ".zip" →
      isCandidate nowTs c ⟨n1, mt⟩ = isCandidate nowTs c ⟨n2, mt⟩
      ∧ processFile nowTs c alwaysOk alwaysOk ⟨n1, mt⟩
          = processFile nowTs c alwaysOk alwaysOk ⟨n2, mt⟩ := by
  intro nowTs c n1 n2 mt h1 h2
  constructor
  · simp [isCandidate, h1, h2, ageDays]
  · simp [processFile, h1, h2, ageDays, alwaysOk]

/-- Instantiation of the C6 theorem on two names embedding different
timestamps. -/
theorem retention_decision_ignores_filename_witness :
    (pathSuffix "site_20240101_000000.zip" = ".zip"
      ∧ pathSuffix "x_19990909_090909.zip" = ".zip")
    ∧ (isCandidate 0 0 ⟨"site_20240101_000000.zip", 0⟩
        = isCandidate 0 0 ⟨"x_19990909_090909.zip", 0⟩
      ∧ processFile 0 0 alwaysOk alwaysOk ⟨"site_20240101_000000.zip", 0⟩
          = processFile 0 0 alwaysOk alwaysOk ⟨"x_19990909_090909.zip", 0⟩) :=
  ⟨⟨by decide, by decide⟩,
    retention_decision_ignores_filename 0 0
      "site_20240101_000000.zip" "x_19990909_090909.zip" 0
      (by decide) (by decide)⟩

/-- Claim C7 as stated is false: the history-log append that precedes
the notification (lines 58 to 59) is not guarded, so in a run where it
fails, NOTIFY is enabled and the upload exit code is 0, no payload is
dispatched — the "if and only if" does not survive that run. -/
theorem notification_missing_despite_gate :
    (runAfterUpload "site" "2024-03-05T14:30:00" true 0 false 0 0 []
        alwaysOk alwaysOk).notification = none
    ∧ (true && ((0 : ℤ) == 0)) = true :=
  ⟨rfl, rfl⟩

/-- Claim C7 (amended): provided the post-upload history-log append
succeeds, the payload — project, ISO date, status "BackupSuccessful" —
is dispatched exactly when NOTIFY is set and the upload exit code is
zero; and on a nonzero upload exit code no payload is ever dispatched,
NOTIFY or not, log append or not. -/
theorem notification_iff_upload_ok_and_notify :
    ∀ (pn iso : String) (notify : Bool) (us : ℤ) (lg : Bool)
      (nowTs c : ℚ) (files : List FsFile) (u l : FsFile → Bool),
      (lg = true →
        (runAfterUpload pn iso notify us lg nowTs c files u l).notification
          = (if notify && us == 0 then some (mkPayload pn iso) else none))
      ∧ (us ≠ 0 →
          (runAfterUpload pn iso notify us lg nowTs c files u l).notification
            = none)
      ∧ mkPayload pn iso = ⟨pn, iso, "BackupSuccessful"⟩ := by
  intro pn iso notify us lg nowTs c files u l
  refine ⟨?_, ?_, rfl⟩
  · intro h
    subst h
    rfl
  · intro hus
    cases lg
    · rfl
    · have hne : (us == 0) = false := by
        simpa using hus
      simp [runAfterUpload, hne]

/-- Instantiation of the amended C7 theorem: with the log append
succeeding, exit code 0 with NOTIFY dispatches the payload and exit
code 1 dispatches nothing. -/
theorem notification_iff_upload_ok_and_notify_witness :
    (runAfterUpload "site" "2024-03-05T14:30:00" true 0 true 0 0 []
        alwaysOk alwaysOk).notification
      = some (mkPayload "site" "2024-03-05T14:30:00")
    ∧ (runAfterUpload "site" "2024-03-05T14:30:00" true 1 true 0 0 []
        alwaysOk alwaysOk).notification = none := by
  have h0 := notification_iff_upload_ok_and_notify
    "site" "2024-03-05T14:30:00" true 0 true 0 0 [] alwaysOk alwaysOk
  have h1 := notification_iff_upload_ok_and_notify
    "site" "2024-03-05T14:30:00" true 1 true 0 0 [] alwaysOk alwaysOk
  exact ⟨by rw [h0.1 rfl]; rfl, h1.2.1 (by decide)⟩

/-- Claim C8 as stated is false: the post-upload history-log append
(lines 58 to 59) sits in no try block, so a run where it fails ends
there — neither the notification nor the retention pass executes, even
though the same population with the append succeeding would have had a
file removed. -/
theorem log_failure_aborts_run :
    (runAfterUpload "site" "d" true 0 false (91 * 86400) 90
        [⟨"old.zip", 0⟩] alwaysOk alwaysOk).retention = none
    ∧ (runAfterUpload "site" "d" true 0 false (91 * 86400) 90
        [⟨"old.zip", 0⟩] alwaysOk alwaysOk).notification = none
    ∧ (runAfterUpload "site" "d" true 0 true (91 * 86400) 90
        [⟨"old.zip", 0⟩] alwaysOk alwaysOk).retention
      = some [(⟨"old.zip", 0⟩, FileOutcome.deleted true)] := by
  have hz : pathSuffix "old.zip" = ".zip" := by decide
  refine ⟨rfl, rfl, ?_⟩
  norm_num [runAfterUpload, deleteOldFiles, processFile, ageDays,
    alwaysOk, hz]

/-- Claim C8 (amended): a failure of the per-deletion log append inside
the retention pass is non-fatal — it never changes which files get
removed and the pass still processes every file — and whenever the
post-upload history-log append succeeds, the notification step and the
retention pass both execute.  A failure of the post-upload append
itself, being unguarded in the source, ends the run. -/
theorem deletion_log_failure_nonfatal_in_pass :
    ∀ (nowTs c : ℚ) (u l l2 : FsFile → Bool) (files : List FsFile),
      removedFiles (deleteOldFiles nowTs c u l files)
        = removedFiles (deleteOldFiles nowTs c u l2 files)
      ∧ (deleteOldFiles nowTs c u l files).map Prod.fst = files
      ∧ (∀ (pn iso : String) (notify : Bool) (us : ℤ),
          (runAfterUpload pn iso notify us true nowTs c files u l).retention
            = some (deleteOldFiles nowTs c u l files)) := by
  intro nowTs c u l l2 files
  refine ⟨?_, ?_, fun pn iso notify us => rfl⟩
  · rw [removedFiles_deleteOldFiles, removedFiles_deleteOldFiles]
  · induction files with
    | nil => rfl
    | cons g gs ih => simp [deleteOldFiles, ih]

/-- Claim C9: the artifact path is a pure function of the backup root,
the project name and the wall-clock instant, laid out as
root/YYYY/MM/DD/PROJECT_YYYYMMDD_HHMMSS.zip; for project "site" at
2024-03-05T14:30:00 under "/backups" it is exactly
"/backups/2024/03/05/site_20240305_143000.zip". -/
theorem zip_path_layout :
    (∀ (b p : String) (t : DateTime),
        zipPath b p t = b ++ "/" ++ datePath t ++ "/" ++ zipName p t
        ∧ zipName p t = p ++ "_" ++ timestampStr t ++ ".zip")
    ∧ zipPath "/backups" "site" ⟨2024, 3, 5, 14, 30, 0⟩
        = "/backups/2024/03/05/site_20240305_143000.zip" :=
  ⟨fun _ _ _ => ⟨rfl, rfl⟩, rfl⟩

/-- Claim C10: when at least one retention window is positive the
cutoff is at least one day, so a file younger than one day — in
particular the archive the same run just created — is never a deletion
candidate and is never removed. -/
theorem same_run_archive_not_deleted :
    ∀ (d w m : ℕ) (nowTs : ℚ) (u l : FsFile → Bool) (f : FsFile),
      (0 < d ∨ 0 < w ∨ 0 < m) → ageDays nowTs f < 1 →
      (1 : ℚ) ≤ ((maxAgeDays d w m : ℕ) : ℚ)
      ∧ isCandidate nowTs ((maxAgeDays d w m : ℕ) : ℚ) f = false
      ∧ removedB (processFile nowTs ((maxAgeDays d w m : ℕ) : ℚ) u l f)
          = false := by
  intro d w m nowTs u l f hpos hage
  have hd : d ≤ maxAgeDays d w m := le_max_left _ _
  have hw : w * 7 ≤ maxAgeDays d w m :=
    le_trans (le_max_left _ _) (le_max_right _ _)
  have hm : m * 30 ≤ maxAgeDays d w m :=
    le_trans (le_max_right _ _) (le_max_right _ _)
  have h1 : 1 ≤ maxAgeDays d w m := by
    rcases hpos with h | h | h <;> omega
  have h1q : (1 : ℚ) ≤ ((maxAgeDays d w m : ℕ) : ℚ) := by
    exact_mod_cast h1
  have hnot : ¬ (((maxAgeDays d w m : ℕ) : ℚ) < ageDays nowTs f) :=
    not_lt.mpr (le_of_lt (lt_of_lt_of_le hage h1q))
  refine ⟨h1q, ?_, ?_⟩
  · simp [isCandidate, hnot]
  · rw [removedB_processFile]
    simp [isCandidate, hnot]

/-- Instantiation of the C10 theorem: with the default windows and an
archive one hour old at scan time, the cutoff is at least 1 and the
archive is neither a candidate nor removed. -/
theorem same_run_archive_not_deleted_witness :
    ((0 < 7 ∨ 0 < 4 ∨ 0 < 3)
      ∧ ageDays 3600 ⟨"site_20240305_143000.zip", 0⟩ < 1)
    ∧ ((1 : ℚ) ≤ ((maxAgeDays 7 4 3 : ℕ) : ℚ)
      ∧ isCandidate 3600 ((maxAgeDays 7 4 3 : ℕ) : ℚ)
          ⟨"site_20240305_143000.zip", 0⟩ = false
      ∧ removedB (processFile 3600 ((maxAgeDays 7 4 3 : ℕ) : ℚ)
          alwaysOk alwaysOk ⟨"site_20240305_143000.zip", 0⟩) = false) :=
  ⟨⟨Or.inl (by decide), by norm_num [ageDays]⟩,
    same_run_archive_not_deleted 7 4 3 3600 alwaysOk alwaysOk
      ⟨"site_20240305_143000.zip", 0⟩ (Or.inl (by decide))
      (by norm_num [ageDays])⟩
